import Mathlib

/-!
Verification of the dual-backend client-side storage layer of the
order-management application (three record kinds: flavors, clients,
orders; an IndexedDB-backed structured store with a localStorage flat
fallback; a one-time flat-to-structured migration; and a best-effort
BroadcastChannel change notifier).

The definitions below are a shallow embedding of the storage code:
 - `putList`, `deleteList`, `bulkPutList` embed the linear-scan
   mutations performed by the localStorage fallback of `storage.put` /
   `storage.delete` and the put-loop of `idbBulkPut`;
 - `FlatPayload` / `readFromLocalStorage` embed the raw localStorage
   payload for one record kind and the tolerant read
   (`readFromLocalStorage` in the source: absent raw string, a string
   that fails `JSON.parse`, and a parse result that is not an array all
   degrade to the empty collection);
 - `DB` with `storageGetAll` / `storagePut` / `storageDelete` /
   `storageBulkPut` embed the `storage` facade that routes on the
   `hasIndexedDB` capability flag, with the IndexedDB object stores
   modelled as keyed record lists;
 - `migrateFlavorsStep` embeds the flavor branch of the `init` effect
   (migration of a pre-existing localStorage collection into IndexedDB
   followed by default seeding);
 - `saveOrderModel` and the `removeOrder` / `storageDelete` models of
   the deliveries dashboard embed the write-then-notify sequence and
   the dashboard's delete path.
Machine numbers that the store never computes with are embedded as
`Int`; fallible paths return `Except String`.
-/

/-- Order discriminator from the source: `'ready' | 'custom'`. -/
inductive OrderType where
  | ready
  | custom
deriving DecidableEq

/-- `OrderStatus` from the source: the closed lifecycle enum. -/
inductive OrderStatus where
  | pending
  | confirmed
  | delivered
  | canceled
deriving DecidableEq

/-- `Flavor` record: key is `name`, attribute `pricePerKg`. -/
structure Flavor where
  name : String
  pricePerKg : Int
deriving DecidableEq

/-- `Client` record: key is `id`. -/
structure Client where
  id : String
  name : String
  phone : String
deriving DecidableEq

/-- `Order` record from the order-entry page: key is `id`; `clientId`
is a weak reference to a `Client`. -/
structure Order where
  id : String
  type : OrderType
  sizeKg : Int
  flavorName : String
  doughColor : String
  price : Int
  clientId : Option String
  clientName : Option String
  clientPhone : Option String
  deliveryDate : Option String
  status : OrderStatus
  createdAt : String
  notes : Option String
  decorated : Option Bool
  decoratedSurcharge : Option Int
deriving DecidableEq

/-- `StoreName` from the source: the three record kinds. -/
inductive StoreName where
  | flavors
  | clients
  | orders
deriving DecidableEq

/-- `StoreMap` from the source: the record type stored under each kind. -/
def StoreMap : StoreName → Type
  | StoreName.flavors => Flavor
  | StoreName.clients => Client
  | StoreName.orders => Order

instance (s : StoreName) : DecidableEq (StoreMap s) :=
  match s with
  | StoreName.flavors => (inferInstance : DecidableEq Flavor)
  | StoreName.clients => (inferInstance : DecidableEq Client)
  | StoreName.orders => (inferInstance : DecidableEq Order)

/-- `getKeyValue` from the source: the primary key of a record,
per kind (`name` for flavors, `id` for clients and orders). -/
def getKeyValue : (s : StoreName) → StoreMap s → String
  | StoreName.flavors, f => f.name
  | StoreName.clients, c => c.id
  | StoreName.orders, o => o.id

/-- `defaultFlavors` from the source: the seed catalog. -/
def defaultFlavors : List Flavor :=
  [⟨"Chocolate", 50⟩, ⟨"Baunilha", 45⟩, ⟨"Morango", 55⟩, ⟨"Limão", 40⟩]

/-- The raw localStorage payload stored for one record kind:
either no raw string at all, a raw string that fails `JSON.parse`,
one that parses to a non-array value, or one that parses to an
array of records. -/
inductive FlatPayload (α : Type) where
  | absent
  | corrupt
  | nonArray
  | arr (items : List α)
deriving DecidableEq

/-- `readFromLocalStorage` from the source: outside a browser return
`[]`; otherwise absent, unparsable and non-array payloads all degrade
to `[]`, and an array payload is returned as-is. -/
def readFromLocalStorage {α : Type} (b : Bool) (p : FlatPayload α) : List α :=
  if b = false then []
  else
    match p with
    | FlatPayload.absent => []
    | FlatPayload.corrupt => []
    | FlatPayload.nonArray => []
    | FlatPayload.arr xs => xs

/-- The in-memory mutation of `storage.put`'s localStorage branch and
of an IndexedDB keyed `put`: `findIndex` by primary key, replace in
place when found, append otherwise. -/
def putList {α : Type} (key : α → String) (cur : List α) (v : α) : List α :=
  match cur.findIdx? (fun x => key x == key v) with
  | some i => cur.set i v
  | none => cur ++ [v]

/-- The in-memory mutation of `storage.delete`'s localStorage branch:
keep every record whose primary key differs from the deleted key. -/
def deleteList {α : Type} (key : α → String) (cur : List α) (k : String) : List α :=
  cur.filter (fun x => !(key x == k))

/-- `idbBulkPut`'s put-loop: one keyed `put` per record, in order. -/
def bulkPutList {α : Type} (key : α → String) (m : List α) (vs : List α) : List α :=
  vs.foldl (fun acc v => putList key acc v) m

/-- `storage.put`'s localStorage branch: no-op outside a browser,
otherwise read the whole collection, replace-or-append by key, and
write the whole collection back. -/
def flatPut {α : Type} (b : Bool) (key : α → String) (p : FlatPayload α) (v : α) :
    FlatPayload α :=
  if b = false then p
  else FlatPayload.arr (putList key (readFromLocalStorage b p) v)

/-- `storage.delete`'s localStorage branch: no-op outside a browser,
otherwise read, filter out the key, write back. -/
def flatDelete {α : Type} (b : Bool) (key : α → String) (p : FlatPayload α) (k : String) :
    FlatPayload α :=
  if b = false then p
  else FlatPayload.arr (deleteList key (readFromLocalStorage b p) k)

/-- `storage.bulkPut`'s localStorage branch: no-op outside a browser,
otherwise overwrite the whole stored collection with the given records. -/
def flatBulkPut {α : Type} (b : Bool) (p : FlatPayload α) (vs : List α) : FlatPayload α :=
  if b = false then p else FlatPayload.arr vs

/-! ### Recursion equations and helper lemmas for the linear-scan mutations -/

theorem putList_nil {α : Type} (key : α → String) (v : α) :
    putList key [] v = [v] := by
  simp [putList]

theorem putList_cons {α : Type} (key : α → String) (x : α) (xs : List α) (v : α) :
    putList key (x :: xs) v =
      if key x == key v then v :: xs else x :: putList key xs v := by
  unfold putList
  rw [List.findIdx?_cons]
  by_cases h : (key x == key v) = true
  · simp [h]
  · rw [List.findIdx?_succ]
    simp only [h, if_false, Bool.false_eq_true]
    cases hf : List.findIdx? (fun y => key y == key v) xs with
    | none => simp [hf]
    | some j => simp [hf]

theorem mem_putList {α : Type} (key : α → String) (cur : List α) (v y : α)
    (h : y ∈ putList key cur v) : y = v ∨ y ∈ cur := by
  induction cur with
  | nil =>
    rw [putList_nil] at h
    simp at h
    exact Or.inl h
  | cons x xs ih =>
    rw [putList_cons] at h
    by_cases hx : (key x == key v) = true
    · rw [if_pos hx] at h
      rcases List.mem_cons.mp h with h1 | h1
      · exact Or.inl h1
      · exact Or.inr (List.mem_cons_of_mem _ h1)
    · rw [if_neg hx] at h
      rcases List.mem_cons.mp h with h1 | h1
      · exact Or.inr (h1 ▸ List.mem_cons_self x xs)
      · rcases ih h1 with h2 | h2
        · exact Or.inl h2
        · exact Or.inr (List.mem_cons_of_mem _ h2)

theorem putList_mem_self {α : Type} (key : α → String) (cur : List α) (v : α) :
    v ∈ putList key cur v := by
  induction cur with
  | nil => rw [putList_nil]; exact List.mem_singleton_self v
  | cons x xs ih =>
    rw [putList_cons]
    by_cases hx : (key x == key v) = true
    · rw [if_pos hx]; exact List.mem_cons_self v xs
    · rw [if_neg hx]; exact List.mem_cons_of_mem _ ih

theorem putList_countP_one {α : Type} (key : α → String) (cur : List α) (v : α)
    (hnd : (cur.map key).Nodup) :
    (putList key cur v).countP (fun x => key x == key v) = 1 := by
  induction cur with
  | nil =>
    rw [putList_nil]
    simp [List.countP_cons]
  | cons x xs ih =>
    rw [List.map_cons, List.nodup_cons] at hnd
    rw [putList_cons]
    by_cases hx : (key x == key v) = true
    · rw [if_pos hx]
      have hxv : key x = key v := beq_iff_eq.mp hx
      have hzero : xs.countP (fun y => key y == key v) = 0 := by
        apply List.countP_eq_zero.mpr
        intro a ha hcontra
        have : key a = key v := beq_iff_eq.mp hcontra
        exact hnd.1 (hxv ▸ this ▸ List.mem_map_of_mem key ha)
      simp [List.countP_cons, hzero]
    · rw [if_neg hx]
      rw [List.countP_cons, ih hnd.2]
      simp [hx]

theorem putList_keys_nodup {α : Type} (key : α → String) (cur : List α) (v : α)
    (hnd : (cur.map key).Nodup) :
    ((putList key cur v).map key).Nodup := by
  induction cur with
  | nil =>
    rw [putList_nil]
    exact List.nodup_singleton _
  | cons x xs ih =>
    rw [List.map_cons, List.nodup_cons] at hnd
    rw [putList_cons]
    by_cases hx : (key x == key v) = true
    · rw [if_pos hx]
      have hxv : key x = key v := beq_iff_eq.mp hx
      rw [List.map_cons, List.nodup_cons]
      exact ⟨hxv ▸ hnd.1, hnd.2⟩
    · rw [if_neg hx]
      rw [List.map_cons, List.nodup_cons]
      refine ⟨?_, ih hnd.2⟩
      intro hmem
      rcases List.mem_map.mp hmem with ⟨y, hy, hkey⟩
      rcases mem_putList key xs v y hy with h1 | h1
      · exact hx (beq_iff_eq.mpr (hkey ▸ h1 ▸ rfl))
      · exact hnd.1 (hkey ▸ List.mem_map_of_mem key h1)

theorem putList_filter_ne {α : Type} (key : α → String) (cur : List α) (v : α) :
    (putList key cur v).filter (fun x => !(key x == key v)) =
      cur.filter (fun x => !(key x == key v)) := by
  induction cur with
  | nil =>
    rw [putList_nil]
    simp
  | cons x xs ih =>
    rw [putList_cons]
    by_cases hx : (key x == key v) = true
    · rw [if_pos hx]
      simp [List.filter_cons, hx]
    · rw [if_neg hx]
      simp [List.filter_cons, hx, ih]

theorem putList_of_forall_ne {α : Type} (key : α → String) (cur : List α) (v : α)
    (h : ∀ x ∈ cur, (key x == key v) = false) :
    putList key cur v = cur ++ [v] := by
  induction cur with
  | nil => rw [putList_nil]; rfl
  | cons x xs ih =>
    rw [putList_cons]
    have hx := h x (List.mem_cons_self x xs)
    rw [hx]
    simp only [Bool.false_eq_true, if_false, List.cons_append]
    rw [ih (fun y hy => h y (List.mem_cons_of_mem _ hy))]

theorem putList_findIdx_set {α : Type} (key : α → String) (cur : List α) (v : α) (i : Nat)
    (h : cur.findIdx? (fun x => key x == key v) = some i) :
    putList key cur v = cur.set i v := by
  unfold putList
  rw [h]

theorem bulkPutList_append_of_nodup {α : Type} (key : α → String) (vs m : List α)
    (hnd : ((m ++ vs).map key).Nodup) :
    bulkPutList key m vs = m ++ vs := by
  induction vs generalizing m with
  | nil => simp [bulkPutList]
  | cons v vs ih =>
    have hput : putList key m v = m ++ [v] := by
      apply putList_of_forall_ne
      intro x hx
      rw [List.map_append, List.nodup_append] at hnd
      have hdisj := hnd.2.2
      by_contra hc
      have hc' : (key x == key v) = true := by
        cases hb : (key x == key v) with
        | false => exact absurd hb hc
        | true => rfl
      have hkx : key x = key v := beq_iff_eq.mp hc'
      exact hdisj (List.mem_map_of_mem key hx)
        (hkx ▸ List.mem_map_of_mem key (List.mem_cons_self v vs))
    have heq : m ++ v :: vs = (m ++ [v]) ++ vs := by
      rw [List.append_assoc]
      rfl
    have : bulkPutList key (m ++ [v]) vs = (m ++ [v]) ++ vs := by
      apply ih
      rw [← heq]
      exact hnd
    calc bulkPutList key m (v :: vs)
        = bulkPutList key (putList key m v) vs := rfl
      _ = bulkPutList key (m ++ [v]) vs := by rw [hput]
      _ = (m ++ [v]) ++ vs := this
      _ = m ++ v :: vs := heq.symm

theorem deleteList_countP_zero {α : Type} (key : α → String) (cur : List α) (k : String) :
    (deleteList key cur k).countP (fun x => key x == k) = 0 := by
  apply List.countP_eq_zero.mpr
  intro a ha
  have := (List.mem_filter.mp ha).2
  simp only [Bool.not_eq_true'] at this
  simp [this]

theorem deleteList_idem {α : Type} (key : α → String) (cur : List α) (k : String) :
    deleteList key (deleteList key cur k) k = deleteList key cur k := by
  unfold deleteList
  rw [List.filter_filter]
  simp

theorem deleteList_of_countP_zero {α : Type} (key : α → String) (cur : List α) (k : String)
    (h : cur.countP (fun x => key x == k) = 0) :
    deleteList key cur k = cur := by
  apply List.filter_eq_self.mpr
  intro a ha
  have := List.countP_eq_zero.mp h a ha
  simp only [Bool.not_eq_true] at this ⊢
  simp [this]

/-! ### The storage facade over the two backends -/

/-- The three IndexedDB object stores (`cakeDB`), one keyed record list
per kind; the engine keeps at most one record per key. -/
structure IdbDB where
  flavors : List Flavor
  clients : List Client
  orders : List Order
deriving DecidableEq

/-- The three localStorage payloads (`cakeFlavors`, `cakeClients`,
`cakeOrders`), one per kind. -/
structure FlatDB where
  flavors : FlatPayload Flavor
  clients : FlatPayload Client
  orders : FlatPayload Order
deriving DecidableEq

def IdbDB.get (d : IdbDB) : (s : StoreName) → List (StoreMap s)
  | StoreName.flavors => d.flavors
  | StoreName.clients => d.clients
  | StoreName.orders => d.orders

def IdbDB.set (d : IdbDB) : (s : StoreName) → List (StoreMap s) → IdbDB
  | StoreName.flavors, xs => IdbDB.mk xs d.clients d.orders
  | StoreName.clients, xs => IdbDB.mk d.flavors xs d.orders
  | StoreName.orders, xs => IdbDB.mk d.flavors d.clients xs

def FlatDB.get (d : FlatDB) : (s : StoreName) → FlatPayload (StoreMap s)
  | StoreName.flavors => d.flavors
  | StoreName.clients => d.clients
  | StoreName.orders => d.orders

def FlatDB.set (d : FlatDB) : (s : StoreName) → FlatPayload (StoreMap s) → FlatDB
  | StoreName.flavors, p => FlatDB.mk p d.clients d.orders
  | StoreName.clients, p => FlatDB.mk d.flavors p d.orders
  | StoreName.orders, p => FlatDB.mk d.flavors d.clients p

/-- The whole persistent state seen by one execution context, with the
capability flags `isBrowser` and `hasIndexedDB` of the source. -/
structure DB where
  browser : Bool
  hasIDB : Bool
  idb : IdbDB
  flat : FlatDB
deriving DecidableEq

/-- `storage.getAll`: route to IndexedDB when available, else to the
tolerant localStorage read. -/
def storageGetAll (db : DB) (s : StoreName) : List (StoreMap s) :=
  if db.hasIDB then db.idb.get s
  else readFromLocalStorage db.browser (db.flat.get s)

/-- `storage.put`: keyed put on IndexedDB when available, else the
read-modify-write localStorage branch. -/
def storagePut (db : DB) (s : StoreName) (v : StoreMap s) : DB :=
  if db.hasIDB then
    DB.mk db.browser db.hasIDB
      (db.idb.set s (putList (getKeyValue s) (db.idb.get s) v)) db.flat
  else
    DB.mk db.browser db.hasIDB db.idb
      (db.flat.set s (flatPut db.browser (getKeyValue s) (db.flat.get s) v))

/-- `storage.delete`: keyed delete on IndexedDB when available, else
the read-filter-write localStorage branch. -/
def storageDelete (db : DB) (s : StoreName) (k : String) : DB :=
  if db.hasIDB then
    DB.mk db.browser db.hasIDB
      (db.idb.set s (deleteList (getKeyValue s) (db.idb.get s) k)) db.flat
  else
    DB.mk db.browser db.hasIDB db.idb
      (db.flat.set s (flatDelete db.browser (getKeyValue s) (db.flat.get s) k))

/-- `storage.bulkPut`: a put per record inside one IndexedDB
transaction when available, else overwrite the whole localStorage
collection. -/
def storageBulkPut (db : DB) (s : StoreName) (vs : List (StoreMap s)) : DB :=
  if db.hasIDB then
    DB.mk db.browser db.hasIDB
      (db.idb.set s (bulkPutList (getKeyValue s) (db.idb.get s) vs)) db.flat
  else
    DB.mk db.browser db.hasIDB db.idb
      (db.flat.set s (flatBulkPut db.browser (db.flat.get s) vs))

theorem IdbDB.get_set_self (d : IdbDB) (s : StoreName) (xs : List (StoreMap s)) :
    (d.set s xs).get s = xs := by
  cases s <;> rfl

theorem IdbDB.set_get_self (d : IdbDB) (s : StoreName) :
    d.set s (d.get s) = d := by
  cases s <;> rfl

theorem IdbDB.set_set (d : IdbDB) (s : StoreName) (xs ys : List (StoreMap s)) :
    (d.set s xs).set s ys = d.set s ys := by
  cases s <;> rfl

/-! ### The flavor branch of the `init` migration -/

/-- The flavor part of `init` in the IndexedDB-capable case: read the
IndexedDB collection; when it is empty, inspect the legacy localStorage
payload, bulk-copy it into IndexedDB when it parses to a non-empty
array, and remove the localStorage copy whenever `JSON.parse`
succeeded; finally seed `defaultFlavors` when still empty. Returns the
new IndexedDB flavor collection and the new localStorage payload. -/
def migrateFlavorsStep (idbF : List Flavor) (lsF : FlatPayload Flavor) :
    List Flavor × FlatPayload Flavor :=
  let key := getKeyValue StoreName.flavors
  let afterMigrate :=
    if idbF.length = 0 then
      match lsF with
      | FlatPayload.absent => (idbF, lsF, idbF)
      | FlatPayload.corrupt => (idbF, lsF, idbF)
      | FlatPayload.nonArray => (idbF, FlatPayload.absent, idbF)
      | FlatPayload.arr xs =>
        if 0 < xs.length then (bulkPutList key idbF xs, FlatPayload.absent, xs)
        else (idbF, FlatPayload.absent, idbF)
    else (idbF, lsF, idbF)
  match afterMigrate with
  | (idb1, ls1, stored1) =>
    if stored1.length = 0 then (bulkPutList key idb1 defaultFlavors, ls1)
    else (idb1, ls1)

/-! ### The deliveries dashboard's delete paths -/

/-- `getDB` of the deliveries dashboard: rejects when the IndexedDB
engine is unavailable in the context. -/
def getDBOpen (hasIDB : Bool) : Except String Unit :=
  if hasIDB then Except.ok () else Except.error "IndexedDB não suportado"

/-- `idbDelete('orders', key)` of the deliveries dashboard: open the
engine (rejecting when unavailable), then delete by key. -/
def idbDeleteOrders (hasIDB : Bool) (idbOrders : List Order) (k : String) :
    Except String (List Order) :=
  match getDBOpen hasIDB with
  | Except.ok _ => Except.ok (deleteList (getKeyValue StoreName.orders) idbOrders k)
  | Except.error e => Except.error e

/-- The storage call `removeOrder` performs: it invokes `idbDelete`
directly, with no capability check and no localStorage fallback. -/
def removeOrderStorageCall (hasIDB : Bool) (idbOrders : List Order) (k : String) :
    Except String (List Order) :=
  idbDeleteOrders hasIDB idbOrders k

/-- `storageDelete` of the same dashboard file: the facade that routes
to `idbDelete` when the engine is available and to the localStorage
filter-and-rewrite otherwise. Returns the pair of backend states. -/
def storageDeleteOrders (hasIDB b : Bool) (idbOrders : List Order)
    (lsOrders : FlatPayload Order) (k : String) :
    Except String (List Order × FlatPayload Order) :=
  if hasIDB then
    match idbDeleteOrders hasIDB idbOrders k with
    | Except.ok m => Except.ok (m, lsOrders)
    | Except.error e => Except.error e
  else Except.ok (idbOrders, flatDelete b (getKeyValue StoreName.orders) lsOrders k)

/-! ### The write-then-notify sequence of `saveOrder` -/

/-- Outcome of the BroadcastChannel publish attempt in `saveOrder`:
either the channel is unsupported in the context, or posting worked,
or the channel threw and the `catch` swallowed it. -/
inductive NotifyOutcome where
  | unsupported
  | posted
  | swallowedError
deriving DecidableEq

/-- The `try { new BroadcastChannel('cake_sync') ... } catch {}` block
of `saveOrder`: guarded by `isBrowser` and channel support, and any
failure of the channel is swallowed. -/
def publishOrdersChanged (b hasBC chanThrows : Bool) : NotifyOutcome :=
  if b && hasBC then
    if chanThrows then NotifyOutcome.swallowedError else NotifyOutcome.posted
  else NotifyOutcome.unsupported

/-- `saveOrder` after the order value is built: `await storage.put`
(whose engine-level rejection is modelled by the `putFails` oracle and
propagates before any publish), then the swallowed publish attempt,
then return the order. -/
def saveOrderModel (db : DB) (o : Order) (putFails hasBC chanThrows : Bool) :
    Except String (DB × NotifyOutcome × Order) :=
  if putFails then Except.error "Falha ao escrever no IndexedDB."
  else
    Except.ok
      (storagePut db StoreName.orders o,
       publishOrdersChanged db.browser hasBC chanThrows, o)

/-! ### Claim theorems -/

/-- C1: on the flat (localStorage) backend's read-modify-write
implementation, for every record kind `s` and record `R`, putting `R`
twice in a row leaves the stored collection with exactly one record
whose primary key equals `R`'s key (and that occurrence is `R`
itself), provided the prior collection satisfies the store's
key-uniqueness invariant. -/
theorem put_put_unique_key (s : StoreName) (R : StoreMap s) (p : FlatPayload (StoreMap s))
    (hnd : ((readFromLocalStorage true p).map (getKeyValue s)).Nodup) :
    ((readFromLocalStorage true
        (flatPut true (getKeyValue s) (flatPut true (getKeyValue s) p R) R)).countP
      (fun x => getKeyValue s x == getKeyValue s R) = 1)
    ∧ R ∈ readFromLocalStorage true
        (flatPut true (getKeyValue s) (flatPut true (getKeyValue s) p R) R) := by
  have hread1 :
      readFromLocalStorage true (flatPut true (getKeyValue s) p R)
        = putList (getKeyValue s) (readFromLocalStorage true p) R := by
    simp [flatPut, readFromLocalStorage]
  have hread2 :
      readFromLocalStorage true
          (flatPut true (getKeyValue s) (flatPut true (getKeyValue s) p R) R)
        = putList (getKeyValue s)
            (putList (getKeyValue s) (readFromLocalStorage true p) R) R := by
    simp [flatPut, readFromLocalStorage, hread1]
  rw [hread2]
  constructor
  · exact putList_countP_one (getKeyValue s) _ R
      (putList_keys_nodup (getKeyValue s) _ R hnd)
  · exact putList_mem_self (getKeyValue s) _ R

/-- Witness for C1: two puts of `{name := "Chocolate", pricePerKg := 50}`
into an absent flavors payload leave exactly one matching record. -/
theorem put_put_unique_key_wit :
    (((readFromLocalStorage true (FlatPayload.absent : FlatPayload Flavor)).map
        (getKeyValue StoreName.flavors)).Nodup)
    ∧ (((readFromLocalStorage true
          (flatPut true (getKeyValue StoreName.flavors)
            (flatPut true (getKeyValue StoreName.flavors)
              (FlatPayload.absent : FlatPayload Flavor) (Flavor.mk "Chocolate" 50))
            (Flavor.mk "Chocolate" 50))).countP
        (fun x => getKeyValue StoreName.flavors x
          == getKeyValue StoreName.flavors (Flavor.mk "Chocolate" 50)) = 1)
      ∧ Flavor.mk "Chocolate" 50 ∈ readFromLocalStorage true
          (flatPut true (getKeyValue StoreName.flavors)
            (flatPut true (getKeyValue StoreName.flavors)
              (FlatPayload.absent : FlatPayload Flavor) (Flavor.mk "Chocolate" 50))
            (Flavor.mk "Chocolate" 50))) :=
  ⟨by decide,
   put_put_unique_key StoreName.flavors (Flavor.mk "Chocolate" 50) FlatPayload.absent
     (by decide)⟩

/-- C2: on the flat backend, `delete(kind, key)` twice in a row is the
same state as deleting once (both calls succeed: the operation is a
total function), the resulting collection holds no record with that
key, and deleting a key that is not present leaves the collection read
unchanged (no-op success). -/
theorem delete_idempotent_total (s : StoreName) (p : FlatPayload (StoreMap s))
    (k : String) (b : Bool) :
    flatDelete b (getKeyValue s) (flatDelete b (getKeyValue s) p k) k
        = flatDelete b (getKeyValue s) p k
    ∧ (readFromLocalStorage b (flatDelete b (getKeyValue s) p k)).countP
        (fun x => getKeyValue s x == k) = 0
    ∧ ((readFromLocalStorage b p).countP (fun x => getKeyValue s x == k) = 0 →
        readFromLocalStorage b (flatDelete b (getKeyValue s) p k)
          = readFromLocalStorage b p) := by
  cases b with
  | false =>
    refine ⟨?_, ?_, ?_⟩
    · simp [flatDelete]
    · simp [flatDelete, readFromLocalStorage]
    · intro _
      rfl
  | true =>
    have hread : ∀ q : FlatPayload (StoreMap s),
        readFromLocalStorage true (flatDelete true (getKeyValue s) q k)
          = deleteList (getKeyValue s) (readFromLocalStorage true q) k := by
      intro q
      simp [flatDelete, readFromLocalStorage]
    refine ⟨?_, ?_, ?_⟩
    · simp [flatDelete, readFromLocalStorage, deleteList_idem]
    · rw [hread]
      exact deleteList_countP_zero (getKeyValue s) _ k
    · intro h0
      rw [hread]
      exact deleteList_of_countP_zero (getKeyValue s) _ k h0

/-- Witness for C2: deleting the absent key `"Baunilha"` twice from a
flavors collection holding only `"Chocolate"` succeeds, leaves no
matching record, and is a no-op on the read collection. -/
theorem delete_idempotent_total_wit :
    (flatDelete true (getKeyValue StoreName.flavors)
        (flatDelete true (getKeyValue StoreName.flavors)
          (FlatPayload.arr [Flavor.mk "Chocolate" 50]) "Baunilha") "Baunilha"
      = flatDelete true (getKeyValue StoreName.flavors)
          (FlatPayload.arr [Flavor.mk "Chocolate" 50]) "Baunilha")
    ∧ (readFromLocalStorage true
        (flatDelete true (getKeyValue StoreName.flavors)
          (FlatPayload.arr [Flavor.mk "Chocolate" 50]) "Baunilha")).countP
        (fun x => getKeyValue StoreName.flavors x == "Baunilha") = 0
    ∧ readFromLocalStorage true
        (flatDelete true (getKeyValue StoreName.flavors)
          (FlatPayload.arr [Flavor.mk "Chocolate" 50]) "Baunilha")
      = readFromLocalStorage true (FlatPayload.arr [Flavor.mk "Chocolate" 50]) :=
  have h := delete_idempotent_total StoreName.flavors
    (FlatPayload.arr [Flavor.mk "Chocolate" 50]) "Baunilha" true
  ⟨h.1, h.2.1, h.2.2 (by decide)⟩

/-- C3: a flat-backend read never fails and always returns a list:
an absent payload, a payload that fails to parse as JSON, and a
payload that parses to a non-array value all read as the empty
collection, while an array payload reads as its records. -/
theorem corrupt_payload_reads_empty (s : StoreName) (b : Bool) (xs : List (StoreMap s)) :
    readFromLocalStorage b (FlatPayload.absent : FlatPayload (StoreMap s)) = []
    ∧ readFromLocalStorage b (FlatPayload.corrupt : FlatPayload (StoreMap s)) = []
    ∧ readFromLocalStorage b (FlatPayload.nonArray : FlatPayload (StoreMap s)) = []
    ∧ readFromLocalStorage true (FlatPayload.arr xs) = xs := by
  cases b <;> simp [readFromLocalStorage]

/-- C4: seeding the flat backend with `N` flavor records (distinct
keys) and running the flavor migration step against an empty
structured backend puts exactly those `N` records into the structured
backend and removes the flat copy; running the step a second time with
the flat copy still present (a failed clear) leaves the structured
backend at exactly `N` records with no duplicates. -/
theorem migration_runner_idempotent (xs : List Flavor) (N : Nat)
    (hN : xs.length = N) (hpos : 0 < N)
    (hnd : (xs.map (getKeyValue StoreName.flavors)).Nodup) :
    migrateFlavorsStep [] (FlatPayload.arr xs) = (xs, FlatPayload.absent)
    ∧ (migrateFlavorsStep [] (FlatPayload.arr xs)).1.length = N
    ∧ migrateFlavorsStep xs (FlatPayload.arr xs) = (xs, FlatPayload.arr xs)
    ∧ (migrateFlavorsStep xs (FlatPayload.arr xs)).1.length = N := by
  have hpos' : 0 < xs.length := by omega
  have hne : ¬(xs.length = 0) := by omega
  have hxs : bulkPutList (getKeyValue StoreName.flavors) [] xs = xs := by
    have h := bulkPutList_append_of_nodup (getKeyValue StoreName.flavors) xs []
      (by simpa using hnd)
    simpa using h
  have h1 : migrateFlavorsStep [] (FlatPayload.arr xs) = (xs, FlatPayload.absent) := by
    unfold migrateFlavorsStep
    simp [hpos', hne, hxs]
  have h2 : migrateFlavorsStep xs (FlatPayload.arr xs) = (xs, FlatPayload.arr xs) := by
    unfold migrateFlavorsStep
    simp [hne]
  exact ⟨h1, by rw [h1]; exact hN, h2, by rw [h2]; exact hN⟩

/-- Witness for C4: migrating two seeded flavors from the flat backend
into an empty structured backend, and running the step again with a
stale flat copy, both end with exactly those two records. -/
theorem migration_runner_idempotent_wit :
    migrateFlavorsStep [] (FlatPayload.arr [Flavor.mk "A" 1, Flavor.mk "B" 2])
      = ([Flavor.mk "A" 1, Flavor.mk "B" 2], FlatPayload.absent)
    ∧ (migrateFlavorsStep []
        (FlatPayload.arr [Flavor.mk "A" 1, Flavor.mk "B" 2])).1.length = 2
    ∧ migrateFlavorsStep [Flavor.mk "A" 1, Flavor.mk "B" 2]
        (FlatPayload.arr [Flavor.mk "A" 1, Flavor.mk "B" 2])
      = ([Flavor.mk "A" 1, Flavor.mk "B" 2],
         FlatPayload.arr [Flavor.mk "A" 1, Flavor.mk "B" 2])
    ∧ (migrateFlavorsStep [Flavor.mk "A" 1, Flavor.mk "B" 2]
        (FlatPayload.arr [Flavor.mk "A" 1, Flavor.mk "B" 2])).1.length = 2 :=
  migration_runner_idempotent [Flavor.mk "A" 1, Flavor.mk "B" 2] 2
    (by decide) (by decide) (by decide)

/-- C5: with the structured engine unavailable (`hasIndexedDB` false),
the deliveries dashboard's `removeOrder` storage call rejects with the
engine error instead of falling back, while the `storageDelete` facade
defined in the same file succeeds by routing to the flat backend: the
code's direct `idbDelete` call surfaces engine unavailability as a
failed operation, contradicting the facade contract. -/
theorem remove_order_engine_unavailable (idbOrders : List Order)
    (lsOrders : FlatPayload Order) (k : String) (b : Bool) :
    removeOrderStorageCall false idbOrders k
        = Except.error "IndexedDB não suportado"
    ∧ (storageDeleteOrders false b idbOrders lsOrders k).isOk = true := by
  exact ⟨rfl, rfl⟩

/-- Counterexample to C6 as stated: on the flat backend, with a prior
collection holding a record keyed `"A"`, `bulkPut` of a single record
keyed `"B"` drops the `"A"` record, while the sequence of `put`s
retains it — the two observable `getAll` results differ. -/
theorem bulkput_put_seq_cex :
    ¬ (readFromLocalStorage true
        (flatBulkPut true (FlatPayload.arr [Flavor.mk "A" 1]) [Flavor.mk "B" 2])
      = readFromLocalStorage true
        (List.foldl (fun q v => flatPut true (getKeyValue StoreName.flavors) q v)
          (FlatPayload.arr [Flavor.mk "A" 1]) [Flavor.mk "B" 2])) := by
  decide

/-- Helper for C6: on the structured backend the bulk put transaction
is the left fold of single keyed puts. -/
theorem storageBulkPut_eq_foldl (s : StoreName) (vals : List (StoreMap s)) :
    ∀ db : DB, db.hasIDB = true →
      storageBulkPut db s vals = vals.foldl (fun d v => storagePut d s v) db := by
  induction vals with
  | nil =>
    intro db hIDB
    cases db with
    | mk br hi idbState flatState =>
      cases hIDB
      simp [storageBulkPut, bulkPutList, IdbDB.set_get_self]
  | cons v vs ih =>
    intro db hIDB
    have h1 : storagePut db s v =
        DB.mk db.browser db.hasIDB
          (db.idb.set s (putList (getKeyValue s) (db.idb.get s) v)) db.flat := by
      simp [storagePut, hIDB]
    have hIDB1 : (storagePut db s v).hasIDB = true := by
      rw [h1]
      exact hIDB
    rw [List.foldl_cons, ← ih (storagePut db s v) hIDB1]
    simp [storageBulkPut, hIDB, h1, bulkPutList, IdbDB.get_set_self, IdbDB.set_set]

/-- Helper for C6: folding the flat `put` over an array payload is the
put-loop on the stored list. -/
theorem foldl_flatPut_arr_eq_bulk {α : Type} (key : α → String) (vs : List α) :
    ∀ m : List α,
      List.foldl (fun q v => flatPut true key q v) (FlatPayload.arr m) vs
        = FlatPayload.arr (bulkPutList key m vs) := by
  induction vs with
  | nil => intro m; rfl
  | cons v vs ih =>
    intro m
    rw [List.foldl_cons]
    have : flatPut true key (FlatPayload.arr m) v
        = FlatPayload.arr (putList key m v) := by
      simp [flatPut, readFromLocalStorage]
    rw [this, ih (putList key m v)]
    rfl

/-- C6 as amended: on the structured backend, `bulkPut(kind, records)`
equals the in-order sequence of `put`s for every state; on the flat
backend, `bulkPut` overwrites the whole stored collection, which
matches the sequence of `put`s only when the prior collection reads as
empty and the records' keys are pairwise distinct. -/
theorem bulkput_eq_put_seq (db : DB) (s : StoreName) (vals : List (StoreMap s))
    (p : FlatPayload (StoreMap s))
    (hIDB : db.hasIDB = true)
    (hread : readFromLocalStorage true p = [])
    (hnd : (vals.map (getKeyValue s)).Nodup) :
    storageBulkPut db s vals = vals.foldl (fun d v => storagePut d s v) db
    ∧ readFromLocalStorage true (flatBulkPut true p vals)
        = readFromLocalStorage true
            (vals.foldl (fun q v => flatPut true (getKeyValue s) q v) p) := by
  refine ⟨storageBulkPut_eq_foldl s vals db hIDB, ?_⟩
  cases vals with
  | nil =>
    rw [List.foldl_nil, hread]
    simp [flatBulkPut, readFromLocalStorage]
  | cons v vs =>
    have hput : flatPut true (getKeyValue s) p v = FlatPayload.arr [v] := by
      simp [flatPut, hread, putList_nil]
    rw [List.foldl_cons, hput, foldl_flatPut_arr_eq_bulk]
    have hbulk : bulkPutList (getKeyValue s) [v] vs = v :: vs := by
      have h := bulkPutList_append_of_nodup (getKeyValue s) vs [v] (by simpa using hnd)
      simpa using h
    rw [hbulk]
    simp [flatBulkPut, readFromLocalStorage]

/-- Witness for the amended C6: one flavor bulk-put into an IndexedDB
context and into an absent flat payload both match the put sequence. -/
theorem bulkput_eq_put_seq_wit :
    storageBulkPut
        (DB.mk true true (IdbDB.mk [] [] [])
          (FlatDB.mk FlatPayload.absent FlatPayload.absent FlatPayload.absent))
        StoreName.flavors [Flavor.mk "A" 1]
      = List.foldl (fun d v => storagePut d StoreName.flavors v)
          (DB.mk true true (IdbDB.mk [] [] [])
            (FlatDB.mk FlatPayload.absent FlatPayload.absent FlatPayload.absent))
          [Flavor.mk "A" 1]
    ∧ readFromLocalStorage true
        (flatBulkPut true (FlatPayload.absent : FlatPayload Flavor) [Flavor.mk "A" 1])
      = readFromLocalStorage true
          (List.foldl (fun q v => flatPut true (getKeyValue StoreName.flavors) q v)
            (FlatPayload.absent : FlatPayload Flavor) [Flavor.mk "A" 1]) :=
  bulkput_eq_put_seq
    (DB.mk true true (IdbDB.mk [] [] [])
      (FlatDB.mk FlatPayload.absent FlatPayload.absent FlatPayload.absent))
    StoreName.flavors [Flavor.mk "A" 1] FlatPayload.absent
    rfl (by decide) (by decide)

/-- C7: deleting a Customer through the facade succeeds (total
function), leaves the orders collection byte-for-byte unchanged — an
order holding a weak `clientId` reference to the deleted customer is
still present and unmodified — and removes every client with that key
from the clients collection. -/
theorem weak_ref_survives_delete (db : DB) (c : Client) (o : Order)
    (hO : o ∈ storageGetAll db StoreName.orders)
    (href : o.clientId = some c.id) :
    storageGetAll (storageDelete db StoreName.clients c.id) StoreName.orders
        = storageGetAll db StoreName.orders
    ∧ o ∈ storageGetAll (storageDelete db StoreName.clients c.id) StoreName.orders
    ∧ (storageGetAll (storageDelete db StoreName.clients c.id) StoreName.clients).countP
        (fun x => getKeyValue StoreName.clients x == c.id) = 0 := by
  cases db with
  | mk br hi idbState flatState =>
    cases hi with
    | true =>
      refine ⟨rfl, hO, ?_⟩
      exact deleteList_countP_zero _ _ _
    | false =>
      refine ⟨rfl, hO, ?_⟩
      cases br with
      | false => rfl
      | true =>
        exact deleteList_countP_zero _ _ _

/-- Witness for C7: deleting client `"c1"` leaves the order that
references `"c1"` present and unchanged. -/
theorem weak_ref_survives_delete_wit :
    storageGetAll
        (storageDelete
          (DB.mk true true
            (IdbDB.mk [] [Client.mk "c1" "Ana" "11999990000"]
              [Order.mk "o1" OrderType.custom 1 "Chocolate" "Branco" 50 (some "c1")
                (some "Ana") (some "11999990000") (some "2025-01-01")
                OrderStatus.pending "2025-01-01T00:00:00.000Z" none none none])
            (FlatDB.mk FlatPayload.absent FlatPayload.absent FlatPayload.absent))
          StoreName.clients "c1")
        StoreName.orders
      = storageGetAll
          (DB.mk true true
            (IdbDB.mk [] [Client.mk "c1" "Ana" "11999990000"]
              [Order.mk "o1" OrderType.custom 1 "Chocolate" "Branco" 50 (some "c1")
                (some "Ana") (some "11999990000") (some "2025-01-01")
                OrderStatus.pending "2025-01-01T00:00:00.000Z" none none none])
            (FlatDB.mk FlatPayload.absent FlatPayload.absent FlatPayload.absent))
          StoreName.orders
    ∧ Order.mk "o1" OrderType.custom 1 "Chocolate" "Branco" 50 (some "c1")
        (some "Ana") (some "11999990000") (some "2025-01-01")
        OrderStatus.pending "2025-01-01T00:00:00.000Z" none none none
      ∈ storageGetAll
          (storageDelete
            (DB.mk true true
              (IdbDB.mk [] [Client.mk "c1" "Ana" "11999990000"]
                [Order.mk "o1" OrderType.custom 1 "Chocolate" "Branco" 50 (some "c1")
                  (some "Ana") (some "11999990000") (some "2025-01-01")
                  OrderStatus.pending "2025-01-01T00:00:00.000Z" none none none])
              (FlatDB.mk FlatPayload.absent FlatPayload.absent FlatPayload.absent))
            StoreName.clients "c1")
          StoreName.orders
    ∧ (storageGetAll
        (storageDelete
          (DB.mk true true
            (IdbDB.mk [] [Client.mk "c1" "Ana" "11999990000"]
              [Order.mk "o1" OrderType.custom 1 "Chocolate" "Branco" 50 (some "c1")
                (some "Ana") (some "11999990000") (some "2025-01-01")
                OrderStatus.pending "2025-01-01T00:00:00.000Z" none none none])
            (FlatDB.mk FlatPayload.absent FlatPayload.absent FlatPayload.absent))
          StoreName.clients "c1")
        StoreName.clients).countP
        (fun x => getKeyValue StoreName.clients x
          == (Client.mk "c1" "Ana" "11999990000").id) = 0 :=
  weak_ref_survives_delete
    (DB.mk true true
      (IdbDB.mk [] [Client.mk "c1" "Ana" "11999990000"]
        [Order.mk "o1" OrderType.custom 1 "Chocolate" "Branco" 50 (some "c1")
          (some "Ana") (some "11999990000") (some "2025-01-01")
          OrderStatus.pending "2025-01-01T00:00:00.000Z" none none none])
      (FlatDB.mk FlatPayload.absent FlatPayload.absent FlatPayload.absent))
    (Client.mk "c1" "Ana" "11999990000")
    (Order.mk "o1" OrderType.custom 1 "Chocolate" "Branco" 50 (some "c1")
      (some "Ana") (some "11999990000") (some "2025-01-01")
      OrderStatus.pending "2025-01-01T00:00:00.000Z" none none none)
    (by decide) (by decide)

/-- C8: flavor keys are case-sensitive at the storage layer: putting
`{name := "Chocolate"}` then `{name := "chocolate"}` into the flat
backend stores two distinct entries. -/
theorem flavor_keys_case_sensitive :
    readFromLocalStorage true
        (flatPut true (getKeyValue StoreName.flavors)
          (flatPut true (getKeyValue StoreName.flavors)
            (FlatPayload.absent : FlatPayload Flavor) (Flavor.mk "Chocolate" 50))
          (Flavor.mk "chocolate" 99))
      = [Flavor.mk "Chocolate" 50, Flavor.mk "chocolate" 99]
    ∧ (readFromLocalStorage true
        (flatPut true (getKeyValue StoreName.flavors)
          (flatPut true (getKeyValue StoreName.flavors)
            (FlatPayload.absent : FlatPayload Flavor) (Flavor.mk "Chocolate" 50))
          (Flavor.mk "chocolate" 99))).length = 2 := by
  decide

/-- C9: in `saveOrder`, the database write is the same for every
behaviour of the change notifier, the operation's success is
independent of whether the broadcast channel is unsupported or throws
(the `catch` swallows it), a successful write always yields `ok`, and
when the write itself rejects the error propagates before any publish
is attempted. -/
theorem save_order_notifier_swallowed (db : DB) (o : Order)
    (putFails hasBC chanThrows hasBC2 chanThrows2 : Bool) :
    (saveOrderModel db o putFails hasBC chanThrows).isOk
        = (saveOrderModel db o putFails hasBC2 chanThrows2).isOk
    ∧ (saveOrderModel db o false hasBC chanThrows).isOk = true
    ∧ saveOrderModel db o false hasBC chanThrows
        = Except.ok (storagePut db StoreName.orders o,
            publishOrdersChanged db.browser hasBC chanThrows, o)
    ∧ saveOrderModel db o true hasBC chanThrows
        = Except.error "Falha ao escrever no IndexedDB." := by
  cases putFails <;> exact ⟨rfl, rfl, rfl, rfl⟩

/-- C10: the flat backend's `put` leaves every stored record with a
different key present, unchanged and in the same relative order (the
collections filtered to the other keys are equal), appends `R` when no
record has its key, and otherwise replaces the first record with that
key in place. -/
theorem flat_put_frame (s : StoreName) (p : FlatPayload (StoreMap s)) (R : StoreMap s) :
    (readFromLocalStorage true (flatPut true (getKeyValue s) p R)).filter
        (fun x => !(getKeyValue s x == getKeyValue s R))
      = (readFromLocalStorage true p).filter
          (fun x => !(getKeyValue s x == getKeyValue s R))
    ∧ ((∀ x ∈ readFromLocalStorage true p, getKeyValue s x ≠ getKeyValue s R) →
        readFromLocalStorage true (flatPut true (getKeyValue s) p R)
          = readFromLocalStorage true p ++ [R])
    ∧ (∀ i, (readFromLocalStorage true p).findIdx?
          (fun x => getKeyValue s x == getKeyValue s R) = some i →
        readFromLocalStorage true (flatPut true (getKeyValue s) p R)
          = (readFromLocalStorage true p).set i R) := by
  have hread : readFromLocalStorage true (flatPut true (getKeyValue s) p R)
      = putList (getKeyValue s) (readFromLocalStorage true p) R := by
    simp [flatPut, readFromLocalStorage]
  refine ⟨?_, ?_, ?_⟩
  · rw [hread]
    exact putList_filter_ne (getKeyValue s) _ R
  · intro h
    rw [hread]
    apply putList_of_forall_ne
    intro x hx
    exact beq_eq_false_iff_ne.mpr (h x hx)
  · intro i hi
    rw [hread]
    exact putList_findIdx_set (getKeyValue s) _ R i hi

/-- Witness for C10: putting a record keyed `"B"` over a collection
holding only `"A"` keeps `"A"` and appends `"B"`; putting it over a
collection already holding `"B"` replaces that record in place. -/
theorem flat_put_frame_wit :
    (readFromLocalStorage true
        (flatPut true (getKeyValue StoreName.flavors)
          (FlatPayload.arr [Flavor.mk "A" 1]) (Flavor.mk "B" 2))).filter
        (fun x => !(getKeyValue StoreName.flavors x
          == getKeyValue StoreName.flavors (Flavor.mk "B" 2)))
      = (readFromLocalStorage true
          (FlatPayload.arr [Flavor.mk "A" 1])).filter
          (fun x => !(getKeyValue StoreName.flavors x
            == getKeyValue StoreName.flavors (Flavor.mk "B" 2)))
    ∧ readFromLocalStorage true
        (flatPut true (getKeyValue StoreName.flavors)
          (FlatPayload.arr [Flavor.mk "A" 1]) (Flavor.mk "B" 2))
      = readFromLocalStorage true (FlatPayload.arr [Flavor.mk "A" 1]) ++ [Flavor.mk "B" 2]
    ∧ readFromLocalStorage true
        (flatPut true (getKeyValue StoreName.flavors)
          (FlatPayload.arr [Flavor.mk "B" 1]) (Flavor.mk "B" 2))
      = (readFromLocalStorage true (FlatPayload.arr [Flavor.mk "B" 1])).set 0 (Flavor.mk "B" 2) :=
  ⟨(flat_put_frame StoreName.flavors (FlatPayload.arr [Flavor.mk "A" 1]) (Flavor.mk "B" 2)).1,
   (flat_put_frame StoreName.flavors (FlatPayload.arr [Flavor.mk "A" 1])
      (Flavor.mk "B" 2)).2.1 (by decide),
   (flat_put_frame StoreName.flavors (FlatPayload.arr [Flavor.mk "B" 1])
      (Flavor.mk "B" 2)).2.2 0 (by decide)⟩
